import Mathlib

/-!
Verification of the CGCookieDownloader repository against its
natural-language specification.

The Python sources are shallowly embedded as Lean definitions:
  - `sanitize_filename` models `cli_downloader.sanitize_filename`
    (two regex passes: replace filesystem-illegal characters with a dash,
    then delete every character that is not word / whitespace / dot / dash;
    the regex classes `\w` and `\s` are modelled by `Char.isAlphanum`,
    underscore, and `Char.isWhitespace`).
  - `pyMaxFrom` / `pyMax` model Python's builtin `max(iterable, key=f)`:
    a left fold that replaces the current champion only on a strictly
    greater key, so the first maximal element is kept.
  - `get_wistia_video_url` models the asset selection in
    `cli_downloader.get_wistia_video_url` / `downloader/utils.get_wistia_video_url`.
-/

/-! ## Filename sanitization (cli_downloader.py lines 37-42) -/

/-- The characters of the regex class `[<>:"/\\|?*]` in `sanitize_filename`. -/
def illegalChars : List Char := ['<', '>', ':', '"', '/', '\\', '|', '?', '*']

/-- Membership in the regex class `[\w\s.-]` (the characters kept by the
second substitution of `sanitize_filename`). `\w` is modelled as
alphanumeric-or-underscore and `\s` as `Char.isWhitespace`. -/
def keepChar (c : Char) : Bool :=
  c.isAlphanum || c == '_' || c.isWhitespace || c == '.' || c == '-'

/-- First pass of `sanitize_filename`: `re.sub(r'[<>:"/\\|?*]', '-', name)`
acting on a single character. -/
def replaceIllegal (c : Char) : Char :=
  if c ∈ illegalChars then '-' else c

/-- `sanitize_filename` on a list of characters: replace the illegal
characters with a dash, then delete everything outside `[\w\s.-]`. -/
def sanitizeChars (s : List Char) : List Char :=
  (s.map replaceIllegal).filter keepChar

/-- `cli_downloader.sanitize_filename`. -/
def sanitize_filename (s : String) : String :=
  ⟨sanitizeChars s.data⟩

theorem illegal_not_keep : ∀ c ∈ illegalChars, keepChar c = false := by decide

theorem keep_not_illegal {c : Char} (h : keepChar c = true) : c ∉ illegalChars := by
  intro hmem
  rw [illegal_not_keep c hmem] at h
  exact Bool.false_ne_true h

theorem replaceIllegal_of_keep {c : Char} (h : keepChar c = true) :
    replaceIllegal c = c := by
  unfold replaceIllegal
  rw [if_neg (keep_not_illegal h)]

theorem mem_sanitizeChars_keep {c : Char} {s : List Char}
    (h : c ∈ sanitizeChars s) : keepChar c = true :=
  (List.mem_filter.mp h).2

theorem sanitizeChars_of_all_keep {s : List Char}
    (h : ∀ c ∈ s, keepChar c = true) : sanitizeChars s = s := by
  unfold sanitizeChars
  rw [List.map_congr_left fun c hc => replaceIllegal_of_keep (h c hc)]
  rw [show (fun c : Char => c) = id from rfl, List.map_id]
  exact List.filter_eq_self.mpr h

theorem sanitizeChars_idem (s : List Char) :
    sanitizeChars (sanitizeChars s) = sanitizeChars s :=
  sanitizeChars_of_all_keep fun _ hc => mem_sanitizeChars_keep hc

theorem sanitizeChars_no_illegal (s : List Char) :
    ∀ c ∈ illegalChars, c ∉ sanitizeChars s := by
  intro c hc hmem
  have hk := mem_sanitizeChars_keep hmem
  exact keep_not_illegal hk hc


/-! ## The second sanitizer: `downloader/utils.extract_lesson_name`
(lines 104-118) replaces each invalid character with a dash by one
`str.replace` call per character class, in sequence. -/

/-- The replacement loop of `extract_lesson_name`: for each invalid
character in turn, replace every occurrence with a dash. -/
def replace_invalid_chars (s : List Char) : List Char :=
  illegalChars.foldl (fun acc c => acc.map (fun x => if x = c then '-' else x)) s

/-- `downloader/utils.extract_lesson_name`: the trimmed name read from the
page, with every invalid character replaced by a dash. -/
def extract_lesson_name (rawName : String) : String :=
  ⟨replace_invalid_chars rawName.data⟩

theorem charFold_not_mem (x : Char) :
    ∀ cs : List Char, x ∉ cs →
      cs.foldl (fun y c => if y = c then '-' else y) x = x := by
  intro cs
  induction cs with
  | nil => intro _; rfl
  | cons c cs ih =>
    intro hx
    have hxc : x ≠ c := fun h => hx (h ▸ List.mem_cons_self c cs)
    have hrest : x ∉ cs := fun h => hx (List.mem_cons_of_mem c h)
    simp only [List.foldl_cons, if_neg hxc]
    exact ih hrest

theorem charFold_eq_replaceIllegal (x : Char) :
    illegalChars.foldl (fun y c => if y = c then '-' else y) x = replaceIllegal x := by
  by_cases hx : x ∈ illegalChars
  · have hx' := hx
    simp only [illegalChars, List.mem_cons, List.not_mem_nil, or_false] at hx'
    rcases hx' with h | h | h | h | h | h | h | h | h <;> subst h <;> decide
  · rw [charFold_not_mem x illegalChars hx]
    unfold replaceIllegal
    rw [if_neg hx]

theorem foldl_map_swap (cs : List Char) :
    ∀ s : List Char,
      cs.foldl (fun acc c => acc.map (fun x => if x = c then '-' else x)) s
        = s.map (fun x => cs.foldl (fun y c => if y = c then '-' else y) x) := by
  induction cs with
  | nil => intro s; simp
  | cons c cs ih =>
    intro s
    simp only [List.foldl_cons]
    rw [ih, List.map_map]
    exact List.map_congr_left fun x _ => rfl

theorem replace_invalid_eq_map (s : List Char) :
    replace_invalid_chars s = s.map replaceIllegal := by
  unfold replace_invalid_chars
  rw [foldl_map_swap]
  exact List.map_congr_left fun x _ => charFold_eq_replaceIllegal x

theorem replaceIllegal_idem (c : Char) :
    replaceIllegal (replaceIllegal c) = replaceIllegal c := by
  by_cases hc : c ∈ illegalChars
  · have h1 : replaceIllegal c = '-' := by unfold replaceIllegal; rw [if_pos hc]
    rw [h1]
    decide
  · have h1 : replaceIllegal c = c := by unfold replaceIllegal; rw [if_neg hc]
    rw [h1, h1]

theorem replace_invalid_idem (s : List Char) :
    replace_invalid_chars (replace_invalid_chars s) = replace_invalid_chars s := by
  rw [replace_invalid_eq_map (replace_invalid_chars s), replace_invalid_eq_map s,
    List.map_map]
  exact List.map_congr_left fun x _ => replaceIllegal_idem x

theorem replace_invalid_no_illegal (s : List Char) :
    ∀ c ∈ illegalChars, c ∉ replace_invalid_chars s := by
  intro c hc hmem
  rw [replace_invalid_eq_map] at hmem
  obtain ⟨a, _, ha⟩ := List.mem_map.mp hmem
  by_cases hai : a ∈ illegalChars
  · have h1 : replaceIllegal a = '-' := by unfold replaceIllegal; rw [if_pos hai]
    rw [h1] at ha
    rw [← ha] at hc
    exact absurd hc (by decide)
  · have h1 : replaceIllegal a = a := by unfold replaceIllegal; rw [if_neg hai]
    rw [h1] at ha
    rw [ha] at hai
    exact hai hc

/-- C2: both sanitizers are idempotent and their outputs never contain any
of the filesystem-illegal characters `< > : " / \ | ? *`. -/
theorem claim2_sanitize_idempotent_and_clean (s : String) :
    (sanitize_filename (sanitize_filename s) = sanitize_filename s ∧
     ∀ c ∈ illegalChars, c ∉ (sanitize_filename s).data) ∧
    (extract_lesson_name (extract_lesson_name s) = extract_lesson_name s ∧
     ∀ c ∈ illegalChars, c ∉ (extract_lesson_name s).data) := by
  refine ⟨⟨?_, ?_⟩, ⟨?_, ?_⟩⟩
  · show (⟨sanitizeChars (sanitizeChars s.data)⟩ : String) = ⟨sanitizeChars s.data⟩
    rw [sanitizeChars_idem]
  · exact sanitizeChars_no_illegal s.data
  · show (⟨replace_invalid_chars (replace_invalid_chars s.data)⟩ : String)
        = ⟨replace_invalid_chars s.data⟩
    rw [replace_invalid_idem]
  · exact replace_invalid_no_illegal s.data

/-- Witness for C2 at the concrete string "a<b:c?.txt". -/
theorem claim2_witness :
    sanitize_filename (sanitize_filename "a<b:c?.txt") = sanitize_filename "a<b:c?.txt" ∧
    ('<' ∈ illegalChars → '<' ∉ (sanitize_filename "a<b:c?.txt").data) ∧
    extract_lesson_name (extract_lesson_name "a<b:c?.txt")
      = extract_lesson_name "a<b:c?.txt" :=
  ⟨(claim2_sanitize_idempotent_and_clean "a<b:c?.txt").1.1,
   fun h => (claim2_sanitize_idempotent_and_clean "a<b:c?.txt").1.2 '<' h,
   (claim2_sanitize_idempotent_and_clean "a<b:c?.txt").2.1⟩

/-! ## Wistia asset selection (cli_downloader.py lines 146-158,
downloader/utils.py lines 90-102) -/

/-- One entry of the `media.assets` array of the Wistia JSON response. -/
structure WistiaAsset where
  url : String
  size : Int
deriving DecidableEq

/-- Python `max(iterable, key=f)` starting from champion `a`: the champion is
replaced only when the candidate key is strictly greater, so on ties the
earlier element survives. -/
def pyMaxFrom {α : Type} (key : α → Int) (a : α) : List α → α
  | [] => a
  | x :: xs => pyMaxFrom key (if key a < key x then x else a) xs

/-- Python `max(iterable, key=f)`: raises on an empty iterable (`none`). -/
def pyMax {α : Type} (key : α → Int) : List α → Option α
  | [] => none
  | a :: as => some (pyMaxFrom key a as)

/-- `get_wistia_video_url`: `max(assets, key=lambda x: x['size'])['url']`. -/
def get_wistia_video_url (assets : List WistiaAsset) : Option String :=
  (pyMax (fun x => x.size) assets).map (fun x => x.url)

theorem pyMaxFrom_cases {α : Type} (key : α → Int) (l : List α) :
    ∀ a : α,
      (pyMaxFrom key a l = a ∧ ∀ x ∈ l, key x ≤ key a) ∨
      (∃ i : Fin l.length,
        pyMaxFrom key a l = l.get i ∧ key a < key (l.get i) ∧
        (∀ x ∈ l, key x ≤ key (l.get i)) ∧
        (∀ j : Fin l.length, (j : Nat) < (i : Nat) → key (l.get j) < key (l.get i))) := by
  induction l with
  | nil =>
    intro a
    exact Or.inl ⟨rfl, by simp⟩
  | cons x xs ih =>
    intro a
    by_cases hxa : key a < key x
    · have hstep : pyMaxFrom key a (x :: xs) = pyMaxFrom key x xs := by
        simp [pyMaxFrom, hxa]
      rcases ih x with ⟨heq, hall⟩ | ⟨i, heq, hlt, hall, hpre⟩
      · refine Or.inr ⟨⟨0, Nat.succ_pos _⟩, ?_, hxa, ?_, ?_⟩
        · rw [hstep, heq]; rfl
        · intro y hy
          rcases List.mem_cons.mp hy with hy | hy
          · exact le_of_eq (congrArg key hy)
          · exact hall y hy
        · intro j hj
          exact absurd hj (Nat.not_lt_zero _)
      · refine Or.inr ⟨⟨i.val + 1, Nat.succ_lt_succ i.isLt⟩, ?_, ?_, ?_, ?_⟩
        · rw [hstep, heq]
          rfl
        · exact lt_trans hxa hlt
        · intro y hy
          rcases List.mem_cons.mp hy with hy | hy
          · rw [hy]
            exact le_of_lt (show key x < key (xs.get i) from hlt)
          · exact hall y hy
        · intro j hj
          rcases j with ⟨jv, hjv⟩
          cases jv with
          | zero => exact hlt
          | succ k =>
            have hk : k < i.val := Nat.lt_of_succ_lt_succ hj
            exact hpre ⟨k, Nat.lt_of_succ_lt_succ hjv⟩ hk
    · have hstep : pyMaxFrom key a (x :: xs) = pyMaxFrom key a xs := by
        simp [pyMaxFrom, hxa]
      have hxa' : key x ≤ key a := not_lt.mp hxa
      rcases ih a with ⟨heq, hall⟩ | ⟨i, heq, hlt, hall, hpre⟩
      · refine Or.inl ⟨hstep.trans heq, ?_⟩
        intro y hy
        rcases List.mem_cons.mp hy with hy | hy
        · rw [hy]; exact hxa'
        · exact hall y hy
      · refine Or.inr ⟨⟨i.val + 1, Nat.succ_lt_succ i.isLt⟩, ?_, hlt, ?_, ?_⟩
        · rw [hstep, heq]
          rfl
        · intro y hy
          rcases List.mem_cons.mp hy with hy | hy
          · rw [hy]
            exact le_trans hxa' (le_of_lt hlt)
          · exact hall y hy
        · intro j hj
          rcases j with ⟨jv, hjv⟩
          cases jv with
          | zero => exact lt_of_le_of_lt hxa' hlt
          | succ k =>
            have hk : k < i.val := Nat.lt_of_succ_lt_succ hj
            exact hpre ⟨k, Nat.lt_of_succ_lt_succ hjv⟩ hk

/-- C1: for every non-empty asset list the resolver returns the url of a
descriptor of maximal size, and every earlier descriptor has a strictly
smaller size (stable first-maximum). -/
theorem claim1_resolver_first_max (assets : List WistiaAsset) (h : assets ≠ []) :
    ∃ i : Fin assets.length,
      get_wistia_video_url assets = some (assets.get i).url ∧
      (∀ x ∈ assets, x.size ≤ (assets.get i).size) ∧
      ∀ j : Fin assets.length, (j : Nat) < (i : Nat) →
        (assets.get j).size < (assets.get i).size := by
  match assets, h with
  | a :: as, _ =>
    have hmain := pyMaxFrom_cases (fun w : WistiaAsset => w.size) as a
    rcases hmain with ⟨heq, hall⟩ | ⟨i, heq, hlt, hall, hpre⟩
    · refine ⟨⟨0, Nat.succ_pos _⟩, ?_, ?_, ?_⟩
      · show some (pyMaxFrom (fun w : WistiaAsset => w.size) a as).url = some a.url
        rw [heq]
      · intro y hy
        rcases List.mem_cons.mp hy with hy | hy
        · exact le_of_eq (congrArg WistiaAsset.size hy)
        · exact hall y hy
      · intro j hj
        exact absurd hj (Nat.not_lt_zero _)
    · refine ⟨⟨i.val + 1, Nat.succ_lt_succ i.isLt⟩, ?_, ?_, ?_⟩
      · show some (pyMaxFrom (fun w : WistiaAsset => w.size) a as).url = _
        rw [heq]
        rfl
      · intro y hy
        rcases List.mem_cons.mp hy with hy | hy
        · rw [hy]
          exact le_of_lt hlt
        · exact hall y hy
      · intro j hj
        rcases j with ⟨jv, hjv⟩
        cases jv with
        | zero => exact hlt
        | succ k =>
          have hk : k < i.val := Nat.lt_of_succ_lt_succ hj
          exact hpre ⟨k, Nat.lt_of_succ_lt_succ hjv⟩ hk

/-- The asset list of the spec example: sizes 100, 500, 300. -/
def exampleAssets : List WistiaAsset :=
  [⟨"u100", 100⟩, ⟨"u500", 500⟩, ⟨"u300", 300⟩]

/-- Witness for C1 at the spec example: the chosen url is a maximal one and
all earlier descriptors are strictly smaller. -/
theorem claim1_witness :
    ∃ i : Fin exampleAssets.length,
      get_wistia_video_url exampleAssets = some (exampleAssets.get i).url ∧
      (∀ x ∈ exampleAssets, x.size ≤ (exampleAssets.get i).size) ∧
      ∀ j : Fin exampleAssets.length, (j : Nat) < (i : Nat) →
        (exampleAssets.get j).size < (exampleAssets.get i).size :=
  claim1_resolver_first_max exampleAssets (by decide)

/-! ## Course enumeration (cli_downloader.py lines 99-128)

`get_course_details` parses the rendered page: every `div.chapter-heading`
is followed by an accordion container holding `li.lesson` entries, and each
entry contributes the pair (anchor title attribute, anchor href) appended to
`video_data` in document order. The parsed DOM is embedded as a list of
chapters, each holding its lesson anchors in document order. -/

/-- An `a.lesson-link` anchor inside an `li.lesson` element. -/
structure LessonAnchor where
  title : String
  href : String
deriving DecidableEq

/-- A `div.chapter-heading` together with the lesson entries of its sibling
accordion container, in document order. -/
structure ChapterDiv where
  lessons : List LessonAnchor
deriving DecidableEq

/-- A `{"title": ..., "link": ...}` entry of `video_data`. -/
structure VideoEntry where
  title : String
  link : String
deriving DecidableEq

/-- The dictionary appended for one lesson anchor. -/
def anchorEntry (a : LessonAnchor) : VideoEntry :=
  ⟨a.title, a.href⟩

/-- `cli_downloader.get_course_details`: the nested for-loops appending one
`VideoEntry` per lesson anchor, chapter by chapter. -/
def get_course_details (pageTitle : String) (chapters : List ChapterDiv) :
    String × List VideoEntry :=
  (pageTitle,
    chapters.foldl
      (fun acc ch => ch.lessons.foldl (fun acc2 l => acc2 ++ [anchorEntry l]) acc)
      [])

theorem foldl_append_singleton {α β : Type} (f : α → β) (l : List α) :
    ∀ acc : List β, l.foldl (fun a x => a ++ [f x]) acc = acc ++ l.map f := by
  induction l with
  | nil => intro acc; simp
  | cons x xs ih =>
    intro acc
    simp only [List.foldl_cons, List.map_cons]
    rw [ih]
    simp

theorem courseFold_eq_join (chapters : List ChapterDiv) :
    ∀ acc : List VideoEntry,
      chapters.foldl
          (fun acc ch => ch.lessons.foldl (fun a l => a ++ [anchorEntry l]) acc) acc
        = acc ++ (chapters.map (fun ch => ch.lessons.map anchorEntry)).join := by
  induction chapters with
  | nil => intro acc; simp
  | cons ch rest ih =>
    intro acc
    simp only [List.foldl_cons, List.map_cons, List.join_cons]
    rw [foldl_append_singleton, ih]
    simp

/-- C4: the course enumerator returns the concatenation, in chapter order
then intra-chapter order, of the per-chapter lesson entries, and the number
of returned pairs is the sum of the per-chapter lesson counts. -/
theorem claim4_enumerator_order_and_count (pageTitle : String)
    (chapters : List ChapterDiv) :
    (get_course_details pageTitle chapters).2
        = (chapters.map (fun ch => ch.lessons.map anchorEntry)).join ∧
    (get_course_details pageTitle chapters).2.length
        = (chapters.map (fun ch => ch.lessons.length)).sum := by
  have h := courseFold_eq_join chapters []
  have h0 : (get_course_details pageTitle chapters).2
      = (chapters.map (fun ch => ch.lessons.map anchorEntry)).join := by
    show chapters.foldl _ [] = _
    rw [h]
    simp
  refine ⟨h0, ?_⟩
  rw [h0, List.length_join, List.map_map]
  have hm : chapters.map (List.length ∘ fun ch => List.map anchorEntry ch.lessons)
      = chapters.map (fun ch => ch.lessons.length) :=
    List.map_congr_left fun ch _ => by simp [Function.comp, List.length_map]
  rw [hm]

/-! ## Chunked streaming download (cli_downloader.py lines 164-175,
downloader/utils.py lines 124-135)

`download_video_from_url` iterates `response.iter_content(chunk_size=1024)`
and writes a chunk only when it is truthy (non-empty). The response body is
embedded as a list of bytes (`Nat`), `iter_content` as the function cutting
it into successive chunks of at most 1024 bytes, and the function returns
the list of chunks actually written. -/

/-- `response.iter_content(chunk_size=1024)`: successive chunks of at most
1024 bytes covering the whole body. -/
def iterChunks (l : List Nat) : List (List Nat) :=
  match l with
  | [] => []
  | b :: rest => List.take 1024 (b :: rest) :: iterChunks (List.drop 1024 (b :: rest))
termination_by l.length
decreasing_by
  simp [List.length_drop]
  omega

/-- `download_video_from_url`: the chunks written to the open file, in
order; the `if chunk:` guard drops falsy (empty) chunks. -/
def download_video_from_url (body : List Nat) : List (List Nat) :=
  (iterChunks body).filter (fun c => !c.isEmpty)

theorem iterChunks_nil_iff (l : List Nat) : iterChunks l = [] ↔ l = [] := by
  cases l with
  | nil => simp [iterChunks]
  | cons b rest => simp [iterChunks]

theorem iterChunks_flatten (l : List Nat) : (iterChunks l).flatten = l := by
  induction l using iterChunks.induct with
  | case1 => simp [iterChunks]
  | case2 b rest ih =>
    rw [iterChunks]
    simp only [List.flatten_cons]
    rw [ih, List.take_append_drop]

theorem iterChunks_ne_nil (l : List Nat) : ∀ c ∈ iterChunks l, c ≠ [] := by
  induction l using iterChunks.induct with
  | case1 => intro c hc; exact absurd hc (by simp [iterChunks])
  | case2 b rest ih =>
    intro c hc
    rw [iterChunks] at hc
    rcases List.mem_cons.mp hc with hc | hc
    · rw [hc]
      apply List.ne_nil_of_length_pos
      simp [List.length_take]
    · exact ih c hc

theorem iterChunks_le (l : List Nat) : ∀ c ∈ iterChunks l, c.length ≤ 1024 := by
  induction l using iterChunks.induct with
  | case1 => intro c hc; exact absurd hc (by simp [iterChunks])
  | case2 b rest ih =>
    intro c hc
    rw [iterChunks] at hc
    rcases List.mem_cons.mp hc with hc | hc
    · rw [hc]
      simp [List.length_take]
    · exact ih c hc

theorem iterChunks_dropLast (l : List Nat) :
    ∀ c ∈ (iterChunks l).dropLast, c.length = 1024 := by
  induction l using iterChunks.induct with
  | case1 => intro c hc; exact absurd hc (by simp [iterChunks])
  | case2 b rest ih =>
    intro c hc
    rw [iterChunks] at hc
    by_cases hd : List.drop 1024 (b :: rest) = []
    · rw [hd] at hc
      exact absurd hc (by simp [iterChunks])
    · have hne : iterChunks (List.drop 1024 (b :: rest)) ≠ [] :=
        fun h0 => hd ((iterChunks_nil_iff _).mp h0)
      obtain ⟨x, xs, hxx⟩ := List.exists_cons_of_ne_nil hne
      rw [hxx] at hc
      have hlen : 1024 < (b :: rest).length := by
        by_contra hcon
        exact hd (List.drop_eq_nil_of_le (not_lt.mp hcon))
      rcases List.mem_cons.mp (by simpa [List.dropLast] using hc) with hc' | hc'
      · rw [hc']
        simp only [List.length_take, List.length_cons]
        simp only [List.length_cons] at hlen
        omega
      · rw [← hxx] at hc'
        exact ih c hc'

theorem download_eq_iterChunks (body : List Nat) :
    download_video_from_url body = iterChunks body := by
  unfold download_video_from_url
  apply List.filter_eq_self.mpr
  intro c hc
  simpa [List.isEmpty_iff] using iterChunks_ne_nil body c hc

/-! ## Effect trace of `downloader/utils.download_course` (lines 161-208)

The per-lesson body of `download_course` is embedded as `uLessonStep`,
which records the externally visible effects in order:
navigate to the lesson, then — when a Wistia id was extracted and is
truthy — the Wistia API GET (`get_wistia_video_url`, line 196), and then,
only when the target file is not skipped, the file download.
Note the API GET sits *before* the `skip_if_exists` existence check
(line 199) in the source. -/

inductive Effect where
  | navigate (url : String)
  | waitLoginMarker
  | mkdirs (path : String)
  | apiGet (wid : String)
  | fileWrite (path : String)
  | warnLog
  | browserQuit
deriving DecidableEq

/-- `os.path.join` for the paths appearing here. -/
def pathJoin (a b : String) : String := a ++ "/" ++ b

/-- Python `f"{idx:02}"`. -/
def fmt2 (n : Nat) : String :=
  if n < 10 then "0" ++ toString n else toString n

/-- `url.split('/')[-1]` as used by `download_course_files` (line 151). -/
def lastSeg (u : String) : String := (u.splitOn "/").getLastD u

/-- A lesson page as `download_course` observes it: whether the
`.wistia_embed` element exists, the value of its `data-video-id` attribute,
the lesson name read by `extract_lesson_name`, and whether the target file
already exists on disk. -/
structure ULesson where
  href : String
  hasWistiaDiv : Bool
  videoIdAttr : Option String
  lessonName : String
  targetExists : Bool
deriving DecidableEq

inductive UOutcome where
  | noWistiaSkip
  | falsyIdSkip
  | existsSkip
  | downloaded
deriving DecidableEq

/-- One iteration of the lesson loop of `download_course` (lines 187-204). -/
def uLessonStep (skipIfExists useNumbering : Bool) (savePath : String) (idx : Nat)
    (l : ULesson) : List Effect × UOutcome :=
  let nav := [Effect.navigate l.href]
  if l.hasWistiaDiv = false then
    (nav ++ [Effect.warnLog], UOutcome.noWistiaSkip)
  else
    match l.videoIdAttr with
    | none => (nav, UOutcome.falsyIdSkip)
    | some wid =>
      if wid = "" then (nav, UOutcome.falsyIdSkip)
      else
        let withApi := nav ++ [Effect.apiGet wid]
        let fname := if useNumbering then fmt2 idx ++ "-" ++ l.lessonName ++ ".mp4"
                     else l.lessonName ++ ".mp4"
        if skipIfExists && l.targetExists then
          (withApi, UOutcome.existsSkip)
        else
          (withApi ++ [Effect.fileWrite (pathJoin savePath fname)], UOutcome.downloaded)

/-- The lesson loop of `download_course`, with 1-based `enumerate` index. -/
def uCourseLessonsEffects (skipIfExists useNumbering : Bool) (savePath : String) :
    Nat → List ULesson → List Effect
  | _, [] => []
  | idx, l :: ls =>
      (uLessonStep skipIfExists useNumbering savePath idx l).1 ++
        uCourseLessonsEffects skipIfExists useNumbering savePath (idx + 1) ls

/-- The effect trace of `download_course`: navigate to the course page,
wait for the signed-in marker, re-navigate inside `get_course_details`,
`os.makedirs(save_path, exist_ok=True)` (line 180), the lesson loop, the
course-files downloads into `save_path`, and `browser.quit()`.
(When the marker never appears, the `except TimeoutException:` handler is
reached but the rest of the function does not run; the trace stops there.) -/
def download_course_effects (courseUrl savePath : String) (markerAppears : Bool)
    (skipIfExists useNumbering : Bool) (lessons : List ULesson)
    (courseFileUrls : List String) : List Effect :=
  Effect.navigate courseUrl :: Effect.waitLoginMarker ::
    (if markerAppears = false then
      []
    else
      Effect.navigate courseUrl :: Effect.mkdirs savePath ::
        (uCourseLessonsEffects skipIfExists useNumbering savePath 1 lessons ++
         courseFileUrls.map (fun u => Effect.fileWrite (pathJoin savePath (lastSeg u))) ++
         [Effect.browserQuit]))

/-- C5: for every response body the written chunks reassemble exactly the
body, every written chunk is non-empty and at most 1024 bytes long (every
chunk except possibly the last is exactly 1024 bytes), and in the
`download_course` trace the `os.makedirs(save_path, exist_ok=True)` call
precedes every file write. -/
theorem claim5_chunked_download_and_mkdirs (body : List Nat)
    (courseUrl savePath : String) (skipIfExists useNumbering : Bool)
    (lessons : List ULesson) (courseFileUrls : List String) :
    (download_video_from_url body).flatten = body ∧
    (∀ c ∈ download_video_from_url body, c ≠ [] ∧ c.length ≤ 1024) ∧
    (∀ c ∈ (download_video_from_url body).dropLast, c.length = 1024) ∧
    (∃ pre post,
      download_course_effects courseUrl savePath true skipIfExists useNumbering
          lessons courseFileUrls
        = pre ++ Effect.mkdirs savePath :: post ∧
      ∀ p, Effect.fileWrite p ∉ pre) := by
  refine ⟨?_, ?_, ?_, ?_⟩
  · rw [download_eq_iterChunks]
    exact iterChunks_flatten body
  · intro c hc
    rw [download_eq_iterChunks] at hc
    exact ⟨iterChunks_ne_nil body c hc, iterChunks_le body c hc⟩
  · intro c hc
    rw [download_eq_iterChunks] at hc
    exact iterChunks_dropLast body c hc
  · refine ⟨[Effect.navigate courseUrl, Effect.waitLoginMarker, Effect.navigate courseUrl],
      uCourseLessonsEffects skipIfExists useNumbering savePath 1 lessons ++
        courseFileUrls.map (fun u => Effect.fileWrite (pathJoin savePath (lastSeg u))) ++
        [Effect.browserQuit], ?_, ?_⟩
    · simp [download_course_effects]
    · intro p hp
      simp at hp

/-- An example response body for the C5 witness. -/
def exBody : List Nat := [1, 2, 3]

/-- Witness for C5 at a concrete body and course. -/
theorem claim5_witness :
    (download_video_from_url exBody).flatten = exBody ∧
    (∃ pre post,
      download_course_effects "cu" "sp" true true true [] []
        = pre ++ Effect.mkdirs "sp" :: post ∧
      ∀ p, Effect.fileWrite p ∉ pre) :=
  ⟨(claim5_chunked_download_and_mkdirs exBody "cu" "sp" true true [] []).1,
   (claim5_chunked_download_and_mkdirs exBody "cu" "sp" true true [] []).2.2.2⟩

/-- The C3 counterexample lesson: Wistia embed present with a truthy id and
the target file already on disk. -/
def exExistingLesson : ULesson :=
  ⟨"/lesson-1", true, some "abc123", "Lesson One", true⟩

/-- C3 counterexample: with `skip_if_exists` true and the target file
present, the lesson step of `download_course` reaches the skip outcome, yet
the Wistia video-asset API GET has already been issued (line 196 runs
before the existence check of line 199), so the claim that no network
request is issued for such a lesson is false at this input. -/
theorem claim3_counterexample :
    (uLessonStep true true "sp" 1 exExistingLesson).2 = UOutcome.existsSkip ∧
    Effect.apiGet "abc123" ∈ (uLessonStep true true "sp" 1 exExistingLesson).1 := by
  decide

/-- C3 (amended): when `skip_if_exists` is true, a truthy Wistia id was
extracted and the target file exists, `download_course` skips the lesson
and issues no file-download request — but the video-asset API GET is
still issued before the existence check. -/
theorem claim3_amended_skip_without_file_download (useNumbering : Bool)
    (savePath : String) (idx : Nat) (l : ULesson) (wid : String)
    (hdiv : l.hasWistiaDiv = true) (hattr : l.videoIdAttr = some wid)
    (hne : wid ≠ "") (hex : l.targetExists = true) :
    (uLessonStep true useNumbering savePath idx l).2 = UOutcome.existsSkip ∧
    (∀ p, Effect.fileWrite p ∉ (uLessonStep true useNumbering savePath idx l).1) ∧
    Effect.apiGet wid ∈ (uLessonStep true useNumbering savePath idx l).1 := by
  have hstep : uLessonStep true useNumbering savePath idx l
      = ([Effect.navigate l.href, Effect.apiGet wid], UOutcome.existsSkip) := by
    simp [uLessonStep, hdiv, hattr, hne, hex]
  refine ⟨by rw [hstep], ?_, by rw [hstep]; simp⟩
  intro p hp
  rw [hstep] at hp
  simp at hp

/-- Witness for the amended C3 at the concrete example lesson. -/
theorem claim3_witness :
    (uLessonStep true true "sp" 1 exExistingLesson).2 = UOutcome.existsSkip ∧
    (∀ p, Effect.fileWrite p ∉ (uLessonStep true true "sp" 1 exExistingLesson).1) :=
  ⟨(claim3_amended_skip_without_file_download true "sp" 1 exExistingLesson "abc123"
      rfl rfl (by decide) rfl).1,
   (claim3_amended_skip_without_file_download true "sp" 1 exExistingLesson "abc123"
      rfl rfl (by decide) rfl).2.1⟩

/-! ## Skipped-data records of the CLI script (cli_downloader.py)

Each `skipped_data.append({...})` site builds a Python dict literal,
embedded here as an ordered list of key/value pairs, one definition per
source site, and `json.dump` (lines 398-400) as a serializer. -/

/-- A JSON value occurring in a skipped-data record. -/
inductive JVal where
  | s (v : String)
  | null
deriving DecidableEq

/-- A skipped-data record: a Python dict, as an ordered key/value list. -/
abbrev SkipRec := List (String × JVal)

/-- The dict appended when no Wistia id was found (lines 313-319). -/
def noWistiaRecord (courseTitle lessonTitle lessonLink : String) : SkipRec :=
  [("course_title", JVal.s courseTitle),
   ("lesson_title", JVal.s lessonTitle),
   ("lesson_link", JVal.s lessonLink)]

/-- The dict appended when the target file already exists (lines 327-333). -/
def existsSkipRecord (courseTitle lessonTitle lessonLink : String) : SkipRec :=
  [("course_title", JVal.s courseTitle),
   ("lesson_title", JVal.s lessonTitle),
   ("lesson_link", JVal.s lessonLink)]

/-- The dict appended when the manual fallback fails (lines 364-370). -/
def manualFailRecord (courseTitle lessonTitle lessonLink : String) : SkipRec :=
  [("course_title", JVal.s courseTitle),
   ("lesson_title", JVal.s lessonTitle),
   ("lesson_link", JVal.s lessonLink)]

/-- The dict appended when course files are missing (lines 377-384); note
the extra `video_url` key of this pseudo-lesson record. -/
def courseFilesRecord (courseTitle : String) : SkipRec :=
  [("course_title", JVal.s courseTitle),
   ("lesson_title", JVal.s "Course Files"),
   ("video_url", JVal.null),
   ("lesson_link", JVal.null)]

def jsonOfJVal : JVal → String
  | JVal.s v => "\"" ++ v ++ "\""
  | JVal.null => "null"

def commaSep : List String → String
  | [] => ""
  | [x] => x
  | x :: xs => x ++ ", " ++ commaSep xs

/-- Serialization of one record as `json.dump` renders a dict. -/
def jsonOfRecord (r : SkipRec) : String :=
  "\x7b" ++ commaSep (r.map (fun p => "\"" ++ p.1 ++ "\": " ++ jsonOfJVal p.2)) ++ "\x7d"

/-- `json.dump(skipped_data, f)`: the serialized array (lines 398-400). -/
def dump_skipped_data (records : List SkipRec) : String :=
  "[" ++ commaSep (records.map jsonOfRecord) ++ "]"

/-! ## The CLI main script (cli_downloader.py lines 241-403) -/

/-- Every name bound at module level or in the main script body of
`cli_downloader.py`. The name `logger` is never assigned anywhere in the
file (the module configures `logging` instead), so looking it up at
line 322 raises NameError. -/
def cliDefinedNames : List String :=
  ["os", "requests", "logging", "tqdm", "List", "Tuple", "Optional",
   "webdriver", "By", "WebDriverWait", "EC", "TimeoutException",
   "BeautifulSoup", "json", "pyautogui", "yaml", "time", "re", "shutil",
   "subprocess", "download_full_page", "sanitize_filename", "setup_browser",
   "wait_for_element", "login_and_redirect", "get_course_details",
   "extract_wistia_id", "get_wistia_video_url", "download_video_from_url",
   "download_course_files", "check_current_files", "check_new_files",
   "download_video_manually", "config", "email", "password", "browser",
   "course_urls", "prefix_option", "skip_if_exists", "course_data",
   "course_url", "course_title", "video_data", "total_videos", "base_url",
   "download_button_loc", "download_button_loc_2", "downloads_path",
   "progress_bar", "manually_downloaded_files", "skipped_data", "course",
   "save_path", "idx", "data", "lesson_title", "lesson_link", "wistia_id",
   "html_content", "soup", "sanitized_title", "lesson_content",
   "text_content", "html_filename", "filename", "full_path", "video_url",
   "pre_course_unrelated_files", "new_file", "new_name", "old", "new"]

/-- A lesson page as the CLI loop observes it. -/
structure CliLesson where
  title : String
  link : String
  hasWistiaDiv : Bool
  videoIdAttr : Option String
  hasLessonContent : Bool
  targetExists : Bool
deriving DecidableEq

/-- An uncaught Python exception aborting the script. -/
inductive Crash where
  | authError          -- an AuthError signalled by authenticate (never built)
  | nameErrorWistiaId  -- `if wistia_id:` with the name never bound
  | nameErrorLogger    -- `logger.info(...)` with `logger` unbound
  | webDriverError     -- a browser command on a closed session
deriving DecidableEq

/-- The mutable state threaded through the CLI loops: the binding of the
name `wistia_id` (`none` = never assigned; it leaks across iterations),
the `skipped_data` list, and the effect trace. -/
structure CliState where
  wistiaBinding : Option (Option String)
  skipped : List SkipRec
  effects : List Effect
deriving DecidableEq

def baseUrl : String := "https://cgcookie.com"

def cliLoginUrl : String := "https://cgcookie.com/customers/sign_in"

/-- The course-files part of the loop body (lines 372-384): on the first
lesson, run `download_course_files` (lines 177-207: makedirs the
`course_files/` folder, then download every anchor whose trimmed text is
non-empty); on failure log and append the four-key pseudo-lesson record. -/
def cliCourseFilesPart (courseTitle savePath : String) (courseFilesOk : Bool)
    (files : List (String × String)) (idx : Nat) (st : CliState) : CliState :=
  if idx = 1 then
    if courseFilesOk then
      { st with
        effects := st.effects ++ [Effect.mkdirs (pathJoin savePath "course_files")] ++
          (files.filter (fun f => !(f.2.trim == ""))).map
            (fun f => Effect.fileWrite (pathJoin (pathJoin savePath "course_files") f.2.trim)) }
    else
      { st with
        effects := st.effects ++ [Effect.warnLog],
        skipped := st.skipped ++ [courseFilesRecord courseTitle] }
  else st

/-- One iteration of the CLI lesson loop (lines 290-386). The result pairs
the state after the iteration with `some crash` when an uncaught exception
aborts the whole script at this lesson. When `extract_wistia_id` raises
(no `.wistia_embed` element), the except branch runs the text fallback and
appends a skipped record, but does not assign `wistia_id`. The subsequent
`if wistia_id:` reads whatever binding is left over — NameError when it was
never bound. In the truthy branch, line 322 evaluates `logger`, which is
not among `cliDefinedNames`, so the branch aborts before the skip check,
the API call and the download; the code of lines 323-370 is unreachable
(its skip branch and its manual-fallback block are modelled separately as
`existsSkipBranch` and `manual_fallback_block`). -/
def cliLessonStep (courseTitle savePath : String) (useNumbering skipIfExists : Bool)
    (courseFilesOk : Bool) (files : List (String × String)) (idx : Nat)
    (l : CliLesson) (st : CliState) : CliState × Option Crash :=
  let st1 : CliState :=
    { st with effects := st.effects ++ [Effect.navigate (baseUrl ++ l.link)] }
  let st2 : CliState :=
    if l.hasWistiaDiv then
      { st1 with wistiaBinding := some l.videoIdAttr }
    else
      let sanitized := sanitize_filename l.title
      let htmlName := if useNumbering then fmt2 idx ++ "-" ++ sanitized ++ ".html"
                      else sanitized ++ ".html"
      let contentEffects :=
        if l.hasLessonContent then [Effect.fileWrite (pathJoin savePath htmlName)]
        else [Effect.warnLog]
      { st1 with
        effects := st1.effects ++ [Effect.warnLog] ++ contentEffects,
        skipped := st1.skipped ++ [noWistiaRecord courseTitle l.title (baseUrl ++ l.link)] }
  match st2.wistiaBinding with
  | none => (st2, some Crash.nameErrorWistiaId)
  | some none => (cliCourseFilesPart courseTitle savePath courseFilesOk files idx st2, none)
  | some (some wid) =>
    if wid = "" then
      (cliCourseFilesPart courseTitle savePath courseFilesOk files idx st2, none)
    else
      if cliDefinedNames.contains "logger" then
        (st2, none)  -- unreachable: `logger` is not a defined name
      else
        (st2, some Crash.nameErrorLogger)

/-- The lesson loop of one course, `enumerate(video_data, 1)`. -/
def cliLessonsLoop (courseTitle savePath : String) (useNumbering skipIfExists : Bool)
    (courseFilesOk : Bool) (files : List (String × String)) :
    Nat → List CliLesson → CliState → CliState × Option Crash
  | _, [], st => (st, none)
  | idx, l :: ls, st =>
    match cliLessonStep courseTitle savePath useNumbering skipIfExists courseFilesOk
        files idx l st with
    | (st2, none) =>
        cliLessonsLoop courseTitle savePath useNumbering skipIfExists courseFilesOk
          files (idx + 1) ls st2
    | (st2, some e) => (st2, some e)

/-- One course of the run: its URL, page title, parsed lessons, and the
observable behavior of its course-files modal. -/
structure CliCourse where
  url : String
  title : String
  lessons : List CliLesson
  courseFilesOk : Bool
  courseFiles : List (String × String)
deriving DecidableEq

/-- One iteration of the course loop (lines 283-386):
`save_path = os.path.join(os.getcwd(), "courses", course_title)`,
`os.makedirs(save_path, exist_ok=True)`, then the lesson loop. -/
def cliCourseStep (useNumbering skipIfExists : Bool) (c : CliCourse) (st : CliState) :
    CliState × Option Crash :=
  let savePath := pathJoin "courses" c.title
  let st1 : CliState := { st with effects := st.effects ++ [Effect.mkdirs savePath] }
  cliLessonsLoop c.title savePath useNumbering skipIfExists c.courseFilesOk
    c.courseFiles 1 c.lessons st1

def cliCoursesLoop (useNumbering skipIfExists : Bool) :
    List CliCourse → CliState → CliState × Option Crash
  | [], st => (st, none)
  | c :: cs, st =>
    match cliCourseStep useNumbering skipIfExists c st with
    | (st2, none) => cliCoursesLoop useNumbering skipIfExists cs st2
    | (st2, some e) => (st2, some e)

/-- The result `login_and_redirect` hands back to the main script. -/
structure LoginResult where
  sessionClosed : Bool
  signaled : Option Crash
deriving DecidableEq

/-- `login_and_redirect` (lines 75-93): submit the credentials and wait up
to 10s for the signed-in marker. On `TimeoutException` the handler logs an
error and calls `browser.quit()`, and the function returns normally: no
exception reaches the caller in either case. -/
def login_and_redirect (markerAppears : Bool) : LoginResult :=
  if markerAppears then ⟨false, none⟩ else ⟨true, none⟩

inductive RunResult where
  | completed
  | crashed (c : Crash)
deriving DecidableEq

/-- The main script (lines 241-403): login, the course-enumeration loop
(lines 258-266, one `get_course_details` navigation per course), the
download loops, the final `skipped_data.json` dump and `browser.quit()`.
After a login timeout the browser session is already closed, so the first
`browser.get(course_url)` of the enumeration raises an uncaught
WebDriverException. -/
def cli_main_run (markerAppears : Bool) (useNumbering skipIfExists : Bool)
    (courses : List CliCourse) : RunResult × CliState :=
  let lr := login_and_redirect markerAppears
  let st0 : CliState :=
    ⟨none, [],
     [Effect.navigate cliLoginUrl] ++
       (if markerAppears then [] else [Effect.browserQuit])⟩
  if lr.sessionClosed then
    match courses with
    | [] =>
      (RunResult.completed,
       { st0 with effects := st0.effects ++ [Effect.fileWrite "skipped_data.json"] })
    | c :: _ =>
      (RunResult.crashed Crash.webDriverError,
       { st0 with effects := st0.effects ++ [Effect.navigate c.url] })
  else
    let stEnum : CliState :=
      { st0 with effects := st0.effects ++ courses.map (fun c => Effect.navigate c.url) }
    match cliCoursesLoop useNumbering skipIfExists courses stEnum with
    | (st2, none) =>
      (RunResult.completed,
       { st2 with effects := st2.effects ++ [Effect.fileWrite "skipped_data.json",
                                             Effect.browserQuit] })
    | (st2, some e) => (RunResult.crashed e, st2)

/-- An example course for the C6 counterexample. -/
def exC6Course : CliCourse :=
  ⟨"https://cgcookie.com/courses/x", "X", [], true, []⟩

/-- C6 counterexample: when the signed-in marker never appears,
`login_and_redirect` signals nothing at all to its caller (it catches the
timeout, logs, quits the browser and returns normally), and the main
script still proceeds to course processing: it navigates to the first
course URL, which is where the run actually dies (an uncaught WebDriver
error on the closed session, not an AuthError). -/
theorem claim6_counterexample :
    (login_and_redirect false).signaled = none ∧
    (login_and_redirect false).sessionClosed = true ∧
    (cli_main_run false true true [exC6Course]).1 = RunResult.crashed Crash.webDriverError ∧
    Effect.navigate "https://cgcookie.com/courses/x"
      ∈ (cli_main_run false true true [exC6Course]).2.effects := by
  refine ⟨rfl, rfl, rfl, ?_⟩
  simp [cli_main_run, login_and_redirect, exC6Course]

/-- C6 (amended): when the signed-in marker never appears within the
timeout, `login_and_redirect` closes the session itself and returns
normally without signalling any error; the run is still fatal, but only
because the main script proceeds to course processing and its first course
navigation on the closed session raises an uncaught WebDriver error. -/
theorem claim6_amended_login_timeout (useNumbering skipIfExists : Bool)
    (c : CliCourse) (cs : List CliCourse) :
    (login_and_redirect false).sessionClosed = true ∧
    (login_and_redirect false).signaled = none ∧
    (cli_main_run false useNumbering skipIfExists (c :: cs)).1
        = RunResult.crashed Crash.webDriverError ∧
    Effect.navigate c.url
      ∈ (cli_main_run false useNumbering skipIfExists (c :: cs)).2.effects := by
  refine ⟨rfl, rfl, rfl, ?_⟩
  simp [cli_main_run, login_and_redirect]

/-- A lesson page with no embedded-video marker but with a content block. -/
def exTextLesson : CliLesson :=
  ⟨"Reading", "/l2", false, none, true, false⟩

/-- C7: evaluation of the CLI lesson body on marker-less lessons. The body
does append exactly one skipped record and performs no video download, but
the run does not continue to the next lesson as the claim states:
(1) on the first lesson of a run, `if wistia_id:` reads a name that was
never bound and the script dies with NameError;
(2) with a stale truthy `wistia_id` left over from an earlier lesson, the
body enters the download branch and dies with NameError at `logger`;
(3) only with a stale falsy binding does the loop reach the next lesson. -/
theorem claim7_textfallback_crashes :
    (cliLessonStep "C" "courses/C" true true true [] 1 exTextLesson ⟨none, [], []⟩
      = (⟨none,
          [noWistiaRecord "C" "Reading" "https://cgcookie.com/l2"],
          [Effect.navigate "https://cgcookie.com/l2", Effect.warnLog,
           Effect.fileWrite "courses/C/01-Reading.html"]⟩,
         some Crash.nameErrorWistiaId)) ∧
    (cliLessonStep "C" "courses/C" true true true [] 2 exTextLesson
        ⟨some (some "stale"), [], []⟩
      = (⟨some (some "stale"),
          [noWistiaRecord "C" "Reading" "https://cgcookie.com/l2"],
          [Effect.navigate "https://cgcookie.com/l2", Effect.warnLog,
           Effect.fileWrite "courses/C/02-Reading.html"]⟩,
         some Crash.nameErrorLogger)) ∧
    (cliLessonStep "C" "courses/C" true true true [] 2 exTextLesson
        ⟨some none, [], []⟩
      = (⟨some none,
          [noWistiaRecord "C" "Reading" "https://cgcookie.com/l2"],
          [Effect.navigate "https://cgcookie.com/l2", Effect.warnLog,
           Effect.fileWrite "courses/C/02-Reading.html"]⟩,
         none)) := by
  refine ⟨?_, ?_, ?_⟩ <;> decide

/-- C9: whenever the lesson page yields a truthy Wistia id, the CLI body
evaluates the unbound name `logger` (line 322) and aborts with NameError
before the skip check, before the API request and before any download: the
final state differs from the incoming one only by the page navigation. -/
theorem claim9_logger_name_error (courseTitle savePath : String)
    (useNumbering skipIfExists courseFilesOk : Bool)
    (files : List (String × String)) (idx : Nat) (l : CliLesson) (st : CliState)
    (wid : String) (hdiv : l.hasWistiaDiv = true) (hattr : l.videoIdAttr = some wid)
    (hne : wid ≠ "") :
    "logger" ∉ cliDefinedNames ∧
    cliLessonStep courseTitle savePath useNumbering skipIfExists courseFilesOk
        files idx l st
      = ({ st with
            wistiaBinding := some (some wid),
            effects := st.effects ++ [Effect.navigate (baseUrl ++ l.link)] },
         some Crash.nameErrorLogger) := by
  have hlog : cliDefinedNames.contains "logger" = false := by decide
  constructor
  · decide
  · simp [cliLessonStep, hdiv, hattr, hne, hlog]
    decide

/-- A lesson page with a truthy Wistia id, for the C9 witness. -/
def exVideoLesson : CliLesson :=
  ⟨"Lesson A", "/l1", true, some "wid1", true, false⟩

/-- Witness for C9 at a concrete lesson and state. -/
theorem claim9_witness :
    "logger" ∉ cliDefinedNames ∧
    cliLessonStep "C" "sp" true true true [] 1 exVideoLesson ⟨none, [], []⟩
      = ({ (⟨none, [], []⟩ : CliState) with
            wistiaBinding := some (some "wid1"),
            effects := [] ++ [Effect.navigate (baseUrl ++ exVideoLesson.link)] },
         some Crash.nameErrorLogger) :=
  claim9_logger_name_error "C" "sp" true true true [] 1 exVideoLesson ⟨none, [], []⟩
    "wid1" rfl rfl (by decide)

/-- The skip branch of the lesson loop (lines 324-334): with
`skip_if_exists` set and the target file present, append the same
three-key dict as a failed lesson and `continue` (`some` = branch taken,
`none` = fall through to the download attempt). -/
def existsSkipBranch (skipIfExists targetExists : Bool)
    (courseTitle lessonTitle lessonLink : String) (skipped : List SkipRec) :
    Option (List SkipRec) :=
  if skipIfExists && targetExists then
    some (skipped ++ [existsSkipRecord courseTitle lessonTitle lessonLink])
  else
    none

/-- C10: a lesson skipped because its target file exists is appended to
`skipped_data` with a record equal, key for key and in serialized JSON
form, to the record of a lesson that failed without producing a file, so
the final `skipped_data.json` cannot distinguish the two cases. -/
theorem claim10_exists_skip_record_shape (ct lt ll : String)
    (skipped : List SkipRec) :
    existsSkipBranch true true ct lt ll skipped
      = some (skipped ++ [existsSkipRecord ct lt ll]) ∧
    existsSkipRecord ct lt ll = noWistiaRecord ct lt ll ∧
    existsSkipRecord ct lt ll = manualFailRecord ct lt ll ∧
    jsonOfRecord (existsSkipRecord ct lt ll) = jsonOfRecord (noWistiaRecord ct lt ll) ∧
    dump_skipped_data (skipped ++ [existsSkipRecord ct lt ll])
      = dump_skipped_data (skipped ++ [noWistiaRecord ct lt ll]) :=
  ⟨rfl, rfl, rfl, rfl, rfl⟩

/-! ## Manual fallback calibration (cli_downloader.py lines 343-354 and
`download_video_manually`, lines 221-234) -/

abbrev Coord := Int × Int

/-- `download_video_manually(download_button_loc, download_button_loc_2, ...)`:
clicks the two stored locations in order; `none` models the ValueError
raised when no download button location was specified. -/
def download_video_manually (loc1 loc2 : Option Coord) : Option (List Coord) :=
  match loc1 with
  | none => none
  | some p1 =>
    match loc2 with
    | none => none
    | some p2 => some [p1, p2]

/-- The pair of mutable variables `download_button_loc` /
`download_button_loc_2`, both `None` at the start of the run (lines 275-276). -/
structure FallbackSt where
  loc1 : Option Coord
  loc2 : Option Coord
deriving DecidableEq

/-- The manual-fallback block (lines 343-354): when `download_button_loc`
is still falsy, prompt the operator and capture both coordinates; then
invoke `download_video_manually` with the stored coordinates. Returns the
new state, the clicks replayed, and whether a capture happened. -/
def manual_fallback_block (operatorPos1 operatorPos2 : Coord) (st : FallbackSt) :
    FallbackSt × Option (List Coord) × Bool :=
  match st.loc1 with
  | none =>
    let st2 : FallbackSt := ⟨some operatorPos1, some operatorPos2⟩
    (st2, download_video_manually st2.loc1 st2.loc2, true)
  | some _ =>
    (st, download_video_manually st.loc1 st.loc2, false)

/-- All manual-fallback invocations of one run, in order; the i-th entry
of the input list is the coordinate pair the operator would supply if
prompted at invocation i. -/
def run_fallbacks : FallbackSt → List (Coord × Coord) → List (Option (List Coord) × Bool)
  | _, [] => []
  | st, op :: rest =>
    let r := manual_fallback_block op.1 op.2 st
    (r.2.1, r.2.2) :: run_fallbacks r.1 rest

theorem run_fallbacks_calibrated (p1 p2 : Coord) (ops : List (Coord × Coord)) :
    ∀ x ∈ run_fallbacks ⟨some p1, some p2⟩ ops, x = (some [p1, p2], false) := by
  induction ops with
  | nil => intro x hx; exact absurd hx (by simp [run_fallbacks])
  | cons op rest ih =>
    intro x hx
    rw [run_fallbacks] at hx
    rcases List.mem_cons.mp hx with hx | hx
    · rw [hx]; rfl
    · exact ih x hx

/-- C8: in one run, the coordinates are captured exactly once, at the
first manual-fallback invocation, and every invocation — the first and all
later ones — replays exactly that first captured pair of clicks. -/
theorem claim8_calibrate_once (i1 i2 : Coord) (rest : List (Coord × Coord)) :
    (run_fallbacks ⟨none, none⟩ ((i1, i2) :: rest)).head? = some (some [i1, i2], true) ∧
    (∀ x ∈ run_fallbacks ⟨none, none⟩ ((i1, i2) :: rest), x.1 = some [i1, i2]) ∧
    List.countP (fun x => x.2) (run_fallbacks ⟨none, none⟩ ((i1, i2) :: rest)) = 1 := by
  have hstep : run_fallbacks ⟨none, none⟩ ((i1, i2) :: rest)
      = (some [i1, i2], true) :: run_fallbacks ⟨some i1, some i2⟩ rest := rfl
  refine ⟨by rw [hstep]; rfl, ?_, ?_⟩
  · intro x hx
    rw [hstep] at hx
    rcases List.mem_cons.mp hx with hx | hx
    · rw [hx]
    · rw [run_fallbacks_calibrated i1 i2 rest x hx]
  · rw [hstep]
    rw [List.countP_cons_of_pos _ _ (by rfl)]
    have hz : List.countP (fun x : Option (List Coord) × Bool => x.2)
        (run_fallbacks ⟨some i1, some i2⟩ rest) = 0 := by
      apply List.countP_eq_zero.mpr
      intro a ha
      rw [run_fallbacks_calibrated i1 i2 rest a ha]
      simp
    rw [hz]

/-- Witness for C8 at two concrete invocations. -/
theorem claim8_witness :
    (run_fallbacks ⟨none, none⟩ [((1, 2), (3, 4)), ((5, 6), (7, 8))]).head?
      = some (some [(1, 2), (3, 4)], true) ∧
    List.countP (fun x => x.2)
        (run_fallbacks ⟨none, none⟩ [((1, 2), (3, 4)), ((5, 6), (7, 8))]) = 1 :=
  ⟨(claim8_calibrate_once (1, 2) (3, 4) [((5, 6), (7, 8))]).1,
   (claim8_calibrate_once (1, 2) (3, 4) [((5, 6), (7, 8))]).2.2⟩
